import Mathlib

/-! Shallow embedding of the gobuild version-derivation and archive code
(git.go and the archive source file), together with a model of standard
semantic-version precedence used to state the ordering claims.
External go-git and filesystem calls appear as data parameters. -/

/-- Decimal digit character, as produced by the %d rendering of Sprintf. -/
def digitChar (n : Nat) : Char :=
  match n with
  | 0 => '0'
  | 1 => '1'
  | 2 => '2'
  | 3 => '3'
  | 4 => '4'
  | 5 => '5'
  | 6 => '6'
  | 7 => '7'
  | 8 => '8'
  | 9 => '9'
  | _ => '*'

/-- Numeric value of a list of decimal digit characters (the ParseUint accumulator). -/
def natOfDigits (cs : List Char) : Nat :=
  cs.foldl (fun a c => 10 * a + (c.toNat - 48)) 0

/-- Fuel-driven decimal rendering of a natural number, most significant digit first. -/
def decChars : Nat → Nat → List Char
  | 0, _ => []
  | fuel + 1, n =>
    if n < 10 then [digitChar n]
    else decChars fuel (n / 10) ++ [digitChar (n % 10)]

/-- Decimal rendering of a natural number, as written by the %d verb of Sprintf. -/
def natToDecimal (n : Nat) : List Char :=
  decChars (n + 1) n

/-- PRVersion from blang/semver: one pre-release component. -/
structure PRVersion where
  versionStr : String
  versionNum : Nat
  isNum : Bool
deriving DecidableEq

/-- Version from blang/semver. -/
structure Version where
  major : Nat
  minor : Nat
  patch : Nat
  pre : List PRVersion
  build : List String
deriving DecidableEq

/-- containsOnly with the numbers character set, from blang/semver. -/
def containsOnlyDigits (cs : List Char) : Bool :=
  cs.all (fun c => c.isDigit)

/-- The blang/semver alphanum character set: ASCII letters, digits and the hyphen. -/
def isAlphanumChar (c : Char) : Bool :=
  c.isAlpha || c.isDigit || c == '-'

/-- hasLeadingZeroes from blang/semver. -/
def hasLeadingZeroes (cs : List Char) : Bool :=
  decide (1 < cs.length) && (cs.headD ' ' == '0')

/-- ParseUint base 10 with a 64-bit bound, after digit validation by the caller. -/
def parseUint (cs : List Char) : Except String Nat :=
  if cs.isEmpty then Except.error "invalid syntax"
  else if natOfDigits cs < 2 ^ 64 then Except.ok (natOfDigits cs)
  else Except.error "value out of range"

/-- Split at the first occurrence of a character (SplitN style separator search). -/
def breakAtChar (sep : Char) : List Char → Option (List Char × List Char)
  | [] => none
  | c :: cs =>
    if c = sep then some ([], cs)
    else
      match breakAtChar sep cs with
      | none => none
      | some (l, r) => some (c :: l, r)

/-- Full split at a character, keeping empty fields (strings.Split semantics). -/
def splitAtChar (sep : Char) : List Char → List (List Char)
  | [] => [[]]
  | c :: cs =>
    if c = sep then [] :: splitAtChar sep cs
    else
      match splitAtChar sep cs with
      | [] => [[c]]
      | g :: gs => (c :: g) :: gs

/-- NewPRVersion from blang/semver. -/
def newPRVersion (cs : List Char) : Except String PRVersion :=
  if cs.isEmpty then Except.error "Prerelease is empty"
  else if containsOnlyDigits cs then
    if hasLeadingZeroes cs then
      Except.error "Numeric PreRelease version must not contain leading zeroes"
    else
      match parseUint cs with
      | Except.error e => Except.error e
      | Except.ok n => Except.ok (PRVersion.mk "" n true)
  else if cs.all isAlphanumChar then Except.ok (PRVersion.mk (String.mk cs) 0 false)
  else Except.error "Invalid character(s) found in prerelease"

/-- The numeric validation block repeated for Major, Minor and Patch in blang/semver Parse. -/
def parseNumPart (cs : List Char) : Except String Nat :=
  if !containsOnlyDigits cs then Except.error "Invalid character(s) found in number"
  else if hasLeadingZeroes cs then Except.error "Number must not contain leading zeroes"
  else parseUint cs

/-- Validation of one build metadata component in blang/semver Parse. -/
def parseBuildPart (b : List Char) : Except String String :=
  if b.isEmpty then Except.error "Build meta data is empty"
  else if b.all isAlphanumChar then Except.ok (String.mk b)
  else Except.error "Invalid character(s) found in build meta data"

/-- Parse from blang/semver (called as semver.Parse in git.go). -/
def semverParse (s : String) : Except String Version :=
  let cs := s.data
  if cs.isEmpty then Except.error "Version string empty"
  else
    match breakAtChar '.' cs with
    | none => Except.error "No Major.Minor.Patch elements found"
    | some (majorCs, rest1) =>
      match breakAtChar '.' rest1 with
      | none => Except.error "No Major.Minor.Patch elements found"
      | some (minorCs, rest2) =>
        match parseNumPart majorCs with
        | Except.error e => Except.error e
        | Except.ok major =>
          match parseNumPart minorCs with
          | Except.error e => Except.error e
          | Except.ok minor =>
            let pb :=
              match breakAtChar '+' rest2 with
              | none => (rest2, ([] : List (List Char)))
              | some (p, b) => (p, splitAtChar '.' b)
            let pp :=
              match breakAtChar '-' pb.1 with
              | none => (pb.1, ([] : List (List Char)))
              | some (p, pr) => (p, splitAtChar '.' pr)
            match parseNumPart pp.1 with
            | Except.error e => Except.error e
            | Except.ok patch =>
              match pp.2.mapM newPRVersion with
              | Except.error e => Except.error e
              | Except.ok pre =>
                match pb.2.mapM parseBuildPart with
                | Except.error e => Except.error e
                | Except.ok build => Except.ok (Version.mk major minor patch pre build)

/-- An annotated tag object as used by git.go: tag name and target commit hash. -/
structure TagObj where
  name : String
  target : Nat
deriving DecidableEq

/-- A repository reference as seen by getVersionTags: short name and referenced hash. -/
structure RefName where
  name : String
  hash : Nat
deriving DecidableEq

/-- A plumbing reference for describe and HEAD: just the commit hash. -/
structure Reference where
  hash : Nat
deriving DecidableEq

/-- GitDescription from git.go. -/
structure GitDescription where
  isClean : Bool
  ref : Reference
  tag : Option TagObj
  n : Nat
deriving DecidableEq

/-- The Go slice Name drop of the leading marker byte, for ASCII tag names. -/
def nameTail (s : String) : String :=
  String.mk (s.data.drop 1)

/-- GetSemver from git.go. The patch field is a uint64, so its increment wraps
modulo 2 to the 64; the alpha component prints the already-incremented
(wrapped) field. -/
def GetSemver (gd : GitDescription) : Except String Version :=
  match gd.tag with
  | none => Except.error "no semver tags found"
  | some tag =>
    match semverParse (nameTail tag.name) with
    | Except.error e => Except.error e
    | Except.ok v =>
      if 0 < gd.n then
        let v1 :=
          if v.pre.isEmpty then
            { v with
                patch := (v.patch + 1) % 2 ^ 64,
                pre := v.pre ++
                  [PRVersion.mk
                    ("alpha." ++ String.mk (natToDecimal ((v.patch + 1) % 2 ^ 64))) 0 false] }
          else v
        Except.ok
          { v1 with
              pre := v1.pre ++ [PRVersion.mk ("devel." ++ String.mk (natToDecimal gd.n)) 0 false] }
      else Except.ok v

/-- Assignment into the hash-to-tag Go map. -/
def mapInsert : List (Nat × TagObj) → Nat → TagObj → List (Nat × TagObj)
  | [], k, t => [(k, t)]
  | (k0, t0) :: rest, k, t =>
    if k0 = k then (k, t) :: rest else (k0, t0) :: mapInsert rest k t

/-- Lookup in the hash-to-tag Go map. -/
def mapFind : List (Nat × TagObj) → Nat → Option TagObj
  | [], _ => none
  | (k0, t0) :: rest, k => if k0 = k then some t0 else mapFind rest k

/-- The repository surface used by git.go, with external go-git calls as data:
worktree retrieval, worktree status, the tag reference iterator, tag object
lookup by hash, and the commit log (in committer-time descending order) from a
given hash. -/
structure Repo where
  worktree : Except String Unit
  statusIsClean : Except String Bool
  tagRefs : Except String (List RefName)
  tagObject : Nat → Option TagObj
  logFrom : Nat → Except String (List Nat)

/-- The tag iterator loop of getVersionTags: skip empty names and names that do
not parse as semver after stripping one character; abort the whole iteration
when a matching name does not resolve to a tag object. -/
def tagLoop (tagObject : Nat → Option TagObj) :
    List RefName → List (Nat × TagObj) → Except String (List (Nat × TagObj))
  | [], acc => Except.ok acc
  | r :: rs, acc =>
    if r.name.length = 0 then tagLoop tagObject rs acc
    else
      match semverParse (nameTail r.name) with
      | Except.ok _ =>
        match tagObject r.hash with
        | none => Except.error "object not found"
        | some t => tagLoop tagObject rs (mapInsert acc t.target t)
      | Except.error _ => tagLoop tagObject rs acc

/-- getVersionTags from git.go. -/
def getVersionTags (r : Repo) : Except String (List (Nat × TagObj)) :=
  match r.tagRefs with
  | Except.error e => Except.error e
  | Except.ok refs => tagLoop r.tagObject refs []

/-- One step of the describe commit walk: the loop body of the log iteration,
with the stop condition modelled as an absorbing stopped state. -/
def walkStep (tags : List (Nat × TagObj)) (st : Option TagObj × Nat) (c : Nat) :
    Option TagObj × Nat :=
  match st.1 with
  | some _ => st
  | none =>
    match mapFind tags c with
    | some t => (some t, st.2)
    | none => (none, st.2 + 1)

/-- The describe commit walk over the log in its iteration order. -/
def walkLog (tags : List (Nat × TagObj)) (log : List Nat) : Option TagObj × Nat :=
  log.foldl (walkStep tags) (none, 0)

/-- describe from git.go; the log list is the commit sequence produced by the
log call in committer-time descending order from the given hash. -/
def describe (r : Repo) (ref : Reference) : Except String GitDescription :=
  match r.worktree with
  | Except.error e => Except.error ("worktree: " ++ e)
  | Except.ok _ =>
    match r.statusIsClean with
    | Except.error e => Except.error ("worktree status: " ++ e)
    | Except.ok clean =>
      match getVersionTags r with
      | Except.error e => Except.error ("version tag: " ++ e)
      | Except.ok tags =>
        match r.logFrom ref.hash with
        | Except.error e => Except.error e
        | Except.ok log =>
          let w := walkLog tags log
          Except.ok (GitDescription.mk clean ref w.1 w.2)

/-- The package-level once cache state for GitDescribe, with a run counter
recording how many times the once body has executed. -/
structure OnceState where
  done : Bool
  cachedGitDescription : Option GitDescription
  cachedGitDescriptionError : Option String
  runs : Nat
deriving DecidableEq

/-- State before any call: empty cache, zero executions of the once body. -/
def initialOnceState : OnceState :=
  OnceState.mk false none none 0

/-- GitDescribe from git.go: the once body runs only when the cache is empty;
its outcome (description and error, as written to the two package globals) is
the compute argument, and the cached pair is returned on every call. -/
def GitDescribe (compute : Option GitDescription × Option String) (s : OnceState) :
    (Option GitDescription × Option String) × OnceState :=
  if s.done then ((s.cachedGitDescription, s.cachedGitDescriptionError), s)
  else ((compute.1, compute.2), OnceState.mk true compute.1 compute.2 (s.runs + 1))

/-- GitArchive from the archive source file. -/
structure GitArchive where
  gd : GitDescription
  pathPrefix : String
deriving DecidableEq

/-- NewGitArchive from the archive source file; the GitDescribe outcome is
passed as data. -/
def NewGitArchive (descr : Except String GitDescription) (pathPrefix : String) :
    Except String GitArchive :=
  match descr with
  | Except.error e => Except.error e
  | Except.ok gd =>
    match gd.tag with
    | none => Except.error "no tag found to create archive from"
    | some t =>
      if 0 < gd.n then Except.error ("tag " ++ t.name ++ " must also be HEAD")
      else Except.ok (GitArchive.mk gd pathPrefix)

/-- Observable writer events during archive creation. -/
inductive WEvent where
  | entry (name : String)
  | closeTar
  | closeGzip
  | closeZip
deriving DecidableEq

/-- The entry loop of createTgzArchive: addEntry abstracts addEntryToTar
against the filesystem; the trace records the entries written before a failure
stops the loop. -/
def tgzLoop (addEntry : String → Except String Unit) :
    List String → Except String Unit × List WEvent
  | [] => (Except.ok (), [])
  | e :: es =>
    match addEntry e with
    | Except.error msg =>
      (Except.error ("while adding file " ++ e ++ " to tar archive: " ++ msg), [])
    | Except.ok _ =>
      let r := tgzLoop addEntry es
      (r.1, WEvent.entry e :: r.2)

/-- createTgzArchive: both deferred closes run, in LIFO order (tar writer
before gzip writer), on the error and success paths alike. -/
def createTgzArchive (addEntry : String → Except String Unit) (entries : List String) :
    Except String Unit × List WEvent :=
  let r := tgzLoop addEntry entries
  (r.1, r.2 ++ [WEvent.closeTar, WEvent.closeGzip])

/-- The entry loop of createZipArchive. -/
def zipLoop (addEntry : String → Except String Unit) :
    List String → Except String Unit × List WEvent
  | [] => (Except.ok (), [])
  | e :: es =>
    match addEntry e with
    | Except.error msg =>
      (Except.error ("while adding file " ++ e ++ " to zip archive: " ++ msg), [])
    | Except.ok _ =>
      let r := zipLoop addEntry es
      (r.1, WEvent.entry e :: r.2)

/-- createZipArchive: the zip writer is closed only by the final return
statement; an entry failure returns early without closing it. -/
def createZipArchive (addEntry : String → Except String Unit) (entries : List String) :
    Except String Unit × List WEvent :=
  let r := zipLoop addEntry entries
  match r.1 with
  | Except.error e => (Except.error e, r.2)
  | Except.ok _ => (Except.ok (), r.2 ++ [WEvent.closeZip])

/-- The first ArchiveFormat constant (iota value 0). -/
def TgzArchive : Nat := 0

/-- The second ArchiveFormat constant (iota value 1). -/
def ZipArchive : Nat := 1

/-- Create on GitArchive: dispatch on the format selector; the entry list
stands for the tree listing concatenated with the extra files. -/
def GitArchive.Create (addEntryTar addEntryZip : String → Except String Unit)
    (format : Nat) (entries : List String) : Except String Unit × List WEvent :=
  if format = TgzArchive then createTgzArchive addEntryTar entries
  else if format = ZipArchive then createZipArchive addEntryZip entries
  else (Except.ok (), [])

/-- Modelled from the spec: a precedence identifier of standard semantic
versioning, numeric or alphanumeric. -/
inductive SVId where
  | num (n : Nat)
  | str (s : String)
deriving DecidableEq

/-- Modelled from the spec: identifier classification of standard semver
precedence (identifiers consisting only of digits compare numerically). -/
def classifyIdent (cs : List Char) : SVId :=
  if cs.isEmpty then SVId.str (String.mk cs)
  else if cs.all (fun c => c.isDigit) then SVId.num (natOfDigits cs)
  else SVId.str (String.mk cs)

/-- Rendering of one PRVersion component, as blang/semver prints it. -/
def prvString (p : PRVersion) : String :=
  if p.isNum then String.mk (natToDecimal p.versionNum) else p.versionStr

/-- Modelled from the spec: the dot-separated identifier sequence of a rendered
pre-release, as standard semantic-version precedence reads it. -/
def preIdents : List PRVersion → List SVId
  | [] => []
  | p :: ps => (splitAtChar '.' (prvString p).data).map classifyIdent ++ preIdents ps

/-- Modelled from the spec: strict order on precedence identifiers. -/
def svidLt : SVId → SVId → Bool
  | SVId.num a, SVId.num b => decide (a < b)
  | SVId.num _, SVId.str _ => true
  | SVId.str _, SVId.num _ => false
  | SVId.str a, SVId.str b => decide (a < b)

/-- Modelled from the spec: strict order on identifier sequences, field by
field, a shorter sequence with equal prefix coming first. -/
def identListLt : List SVId → List SVId → Bool
  | [], [] => false
  | [], _ :: _ => true
  | _ :: _, [] => false
  | a :: as, b :: bs => if a = b then identListLt as bs else svidLt a b

/-- Modelled from the spec: standard semantic-version precedence as a strict
order, with a pre-release sorting below the corresponding release. -/
def stdLt (v w : Version) : Bool :=
  if v.major = w.major then
    if v.minor = w.minor then
      if v.patch = w.patch then
        if v.pre.isEmpty then false
        else if w.pre.isEmpty then true
        else identListLt (preIdents v.pre) (preIdents w.pre)
      else decide (v.patch < w.patch)
    else decide (v.minor < w.minor)
  else decide (v.major < w.major)

/-! Helper lemmas about decimal rendering, splitting and identifier order. -/

lemma digitChar_facts : ∀ d, d < 10 →
    ((digitChar d).isDigit = true ∧ (digitChar d).toNat - 48 = d) := by
  decide

lemma isDigit_ne_dot (c : Char) (h : c.isDigit = true) : ¬ c = '.' := by
  intro he
  subst he
  exact absurd h (by decide)

lemma natOfDigits_append (xs : List Char) (c : Char) :
    natOfDigits (xs ++ [c]) = 10 * natOfDigits xs + (c.toNat - 48) := by
  unfold natOfDigits
  rw [List.foldl_append]
  rfl

lemma decChars_spec : ∀ fuel n, n < fuel →
    (decChars fuel n ≠ [] ∧ (∀ c ∈ decChars fuel n, c.isDigit = true) ∧
      natOfDigits (decChars fuel n) = n) := by
  intro fuel
  induction fuel with
  | zero => intro n hn; omega
  | succ fuel ih =>
    intro n hn
    by_cases h : n < 10
    · refine ⟨by simp [decChars, h], ?_, ?_⟩
      · intro c hc
        simp [decChars, h] at hc
        subst hc
        exact (digitChar_facts n h).1
      · have hd := (digitChar_facts n h).2
        simp [decChars, h, natOfDigits]
        omega
    · have hdiv : n / 10 < fuel := by omega
      obtain ⟨h1, h2, h3⟩ := ih (n / 10) hdiv
      have hmod : n % 10 < 10 := Nat.mod_lt _ (by omega)
      refine ⟨by simp [decChars, h], ?_, ?_⟩
      · intro c hc
        simp only [decChars, if_neg h] at hc
        rcases List.mem_append.1 hc with hcl | hcr
        · exact h2 c hcl
        · simp at hcr
          subst hcr
          exact (digitChar_facts (n % 10) hmod).1
      · simp only [decChars, if_neg h]
        rw [natOfDigits_append, h3, (digitChar_facts (n % 10) hmod).2]
        omega

lemma natToDecimal_ne_nil (n : Nat) : natToDecimal n ≠ [] :=
  (decChars_spec (n + 1) n (Nat.lt_succ_self n)).1

lemma natToDecimal_digits (n : Nat) : ∀ c ∈ natToDecimal n, c.isDigit = true :=
  (decChars_spec (n + 1) n (Nat.lt_succ_self n)).2.1

lemma natOfDigits_natToDecimal (n : Nat) : natOfDigits (natToDecimal n) = n :=
  (decChars_spec (n + 1) n (Nat.lt_succ_self n)).2.2

lemma natToDecimal_no_dot (n : Nat) : ∀ c ∈ natToDecimal n, ¬ c = '.' :=
  fun c hc => isDigit_ne_dot c (natToDecimal_digits n c hc)

lemma classifyIdent_decimal (n : Nat) : classifyIdent (natToDecimal n) = SVId.num n := by
  unfold classifyIdent
  rw [if_neg, if_pos, natOfDigits_natToDecimal]
  · exact List.all_eq_true.2 (natToDecimal_digits n)
  · simp [List.isEmpty_eq_false.2 (natToDecimal_ne_nil n)]

lemma splitAtChar_cons_eq (sep : Char) (cs : List Char) :
    splitAtChar sep (sep :: cs) = [] :: splitAtChar sep cs := by
  simp [splitAtChar]

lemma splitAtChar_cons_ne (sep c : Char) (cs : List Char) (h : ¬ c = sep) :
    splitAtChar sep (c :: cs) =
      match splitAtChar sep cs with
      | [] => [[c]]
      | g :: gs => (c :: g) :: gs := by
  simp [splitAtChar, h]

lemma splitAtChar_no_sep (sep : Char) (cs : List Char) (h : ∀ c ∈ cs, ¬ c = sep) :
    splitAtChar sep cs = [cs] := by
  induction cs with
  | nil => rfl
  | cons x xs ih =>
    rw [splitAtChar_cons_ne sep x xs (h x (by simp)), ih (fun c hc => h c (by simp [hc]))]

lemma splitAtChar_sep_middle (sep : Char) (a b : List Char)
    (ha : ∀ c ∈ a, ¬ c = sep) (hb : ∀ c ∈ b, ¬ c = sep) :
    splitAtChar sep (a ++ sep :: b) = [a, b] := by
  induction a with
  | nil => rw [List.nil_append, splitAtChar_cons_eq, splitAtChar_no_sep sep b hb]
  | cons x xs ih =>
    rw [List.cons_append, splitAtChar_cons_ne sep x _ (ha x (by simp)),
      ih (fun c hc => ha c (by simp [hc]))]

lemma devel_idents (d : Nat) :
    (splitAtChar '.' (prvString (PRVersion.mk ("devel." ++ String.mk (natToDecimal d)) 0 false)).data).map
        classifyIdent = [SVId.str "devel", SVId.num d] := by
  have hdata : (prvString (PRVersion.mk ("devel." ++ String.mk (natToDecimal d)) 0 false)).data =
      ['d', 'e', 'v', 'e', 'l'] ++ '.' :: natToDecimal d := rfl
  rw [hdata, splitAtChar_sep_middle '.' _ _ (by decide) (natToDecimal_no_dot d)]
  simp only [List.map_cons, List.map_nil, classifyIdent_decimal]
  rfl

lemma preIdents_append (p q : List PRVersion) :
    preIdents (p ++ q) = preIdents p ++ preIdents q := by
  induction p with
  | nil => rfl
  | cons x xs ih => simp [preIdents, ih]

lemma identListLt_append (p a b : List SVId) :
    identListLt (p ++ a) (p ++ b) = identListLt a b := by
  induction p with
  | nil => rfl
  | cons x xs ih => simp [identListLt, ih]

lemma isEmpty_append_singleton {α : Type} (l : List α) (x : α) :
    (l ++ [x]).isEmpty = false := by
  cases l <;> rfl

lemma stdLt_append_devel (v : Version) (d1 d2 : Nat) (h : d1 < d2) :
    stdLt
      { v with pre := v.pre ++ [PRVersion.mk ("devel." ++ String.mk (natToDecimal d1)) 0 false] }
      { v with pre := v.pre ++ [PRVersion.mk ("devel." ++ String.mk (natToDecimal d2)) 0 false] } =
      true := by
  unfold stdLt
  simp only [if_pos rfl, isEmpty_append_singleton, Bool.false_eq_true, if_false,
    preIdents_append, identListLt_append]
  have h1 := devel_idents d1
  have h2 := devel_idents d2
  simp only [preIdents, h1, h2, List.append_nil]
  have hne : ¬ (SVId.num d1 = SVId.num d2) := by
    intro he
    cases he
    omega
  simp [identListLt, svidLt, hne, h]

lemma getSemver_pos_empty (gd : GitDescription) (t : TagObj) (v : Version)
    (ht : gd.tag = some t)
    (hp : semverParse (nameTail t.name) = Except.ok v)
    (hpre : v.pre = [])
    (hn : 0 < gd.n) :
    GetSemver gd = Except.ok (Version.mk v.major v.minor ((v.patch + 1) % 2 ^ 64)
      [PRVersion.mk ("alpha." ++ String.mk (natToDecimal ((v.patch + 1) % 2 ^ 64))) 0 false,
        PRVersion.mk ("devel." ++ String.mk (natToDecimal gd.n)) 0 false] v.build) := by
  simp only [GetSemver, ht, hp]
  rw [if_pos hn]
  rw [hpre]
  simp

lemma getSemver_pos_nonempty (gd : GitDescription) (t : TagObj) (v : Version)
    (ht : gd.tag = some t)
    (hp : semverParse (nameTail t.name) = Except.ok v)
    (hpre : v.pre.isEmpty = false)
    (hn : 0 < gd.n) :
    GetSemver gd = Except.ok (Version.mk v.major v.minor v.patch
      (v.pre ++ [PRVersion.mk ("devel." ++ String.mk (natToDecimal gd.n)) 0 false]) v.build) := by
  simp only [GetSemver, ht, hp]
  rw [if_pos hn]
  rw [hpre]
  simp

/-- Claim C1: for every semver tag and every pair of distances d1 < d2 (both
positive) from that tag, the version synthesized by GetSemver at distance d1
compares strictly less than the one synthesized at distance d2 under standard
semantic-version precedence. -/
theorem getSemver_distance_monotone (gd1 gd2 : GitDescription) (t : TagObj)
    (v1 v2 : Version)
    (ht1 : gd1.tag = some t) (ht2 : gd2.tag = some t)
    (h1 : 0 < gd1.n) (h12 : gd1.n < gd2.n)
    (hv1 : GetSemver gd1 = Except.ok v1) (hv2 : GetSemver gd2 = Except.ok v2) :
    stdLt v1 v2 = true := by
  have h2 : 0 < gd2.n := Nat.lt_trans h1 h12
  cases hp : semverParse (nameTail t.name) with
  | error e =>
    have hgd1 : GetSemver gd1 = Except.error e := by simp only [GetSemver, ht1, hp]
    rw [hgd1] at hv1
    exact absurd hv1 (by simp)
  | ok v =>
    by_cases hpre : v.pre = []
    · rw [getSemver_pos_empty gd1 t v ht1 hp hpre h1, Except.ok.injEq] at hv1
      rw [getSemver_pos_empty gd2 t v ht2 hp hpre h2, Except.ok.injEq] at hv2
      subst hv1
      subst hv2
      exact stdLt_append_devel
        (Version.mk v.major v.minor ((v.patch + 1) % 2 ^ 64)
          [PRVersion.mk ("alpha." ++ String.mk (natToDecimal ((v.patch + 1) % 2 ^ 64))) 0 false]
          v.build)
        gd1.n gd2.n h12
    · have hpre' : v.pre.isEmpty = false := List.isEmpty_eq_false.2 hpre
      rw [getSemver_pos_nonempty gd1 t v ht1 hp hpre' h1, Except.ok.injEq] at hv1
      rw [getSemver_pos_nonempty gd2 t v ht2 hp hpre' h2, Except.ok.injEq] at hv2
      subst hv1
      subst hv2
      exact stdLt_append_devel v gd1.n gd2.n h12

/-- Witness for C1 at tag v1.2.3 with distances 1 and 2. -/
theorem getSemver_distance_monotone_witness :
    GetSemver (GitDescription.mk true (Reference.mk 1) (some (TagObj.mk "v1.2.3" 1)) 1) =
      Except.ok (Version.mk 1 2 4
        [PRVersion.mk "alpha.4" 0 false, PRVersion.mk "devel.1" 0 false] []) ∧
    GetSemver (GitDescription.mk true (Reference.mk 1) (some (TagObj.mk "v1.2.3" 1)) 2) =
      Except.ok (Version.mk 1 2 4
        [PRVersion.mk "alpha.4" 0 false, PRVersion.mk "devel.2" 0 false] []) ∧
    stdLt
      (Version.mk 1 2 4 [PRVersion.mk "alpha.4" 0 false, PRVersion.mk "devel.1" 0 false] [])
      (Version.mk 1 2 4 [PRVersion.mk "alpha.4" 0 false, PRVersion.mk "devel.2" 0 false] []) =
      true :=
  ⟨rfl, rfl,
    getSemver_distance_monotone
      (GitDescription.mk true (Reference.mk 1) (some (TagObj.mk "v1.2.3" 1)) 1)
      (GitDescription.mk true (Reference.mk 1) (some (TagObj.mk "v1.2.3" 1)) 2)
      (TagObj.mk "v1.2.3" 1) _ _ rfl rfl (by decide) (by decide) rfl rfl⟩

/-- Claim C2 counterexample: at the parseable tag v1.2.18446744073709551615
(patch equal to 2 to the 64 minus 1) with positive distance, the uint64 patch
increment wraps to 0 and the alpha component is alpha.0, so the patch does not
equal the tag's patch plus one. -/
theorem getSemver_patch_wrap_counterexample :
    semverParse (nameTail "v1.2.18446744073709551615") =
      Except.ok (Version.mk 1 2 18446744073709551615 [] []) ∧
    GetSemver (GitDescription.mk true (Reference.mk 1)
        (some (TagObj.mk "v1.2.18446744073709551615" 1)) 3) =
      Except.ok (Version.mk 1 2 0
        [PRVersion.mk "alpha.0" 0 false, PRVersion.mk "devel.3" 0 false] []) ∧
    ¬ (0 = 18446744073709551615 + 1) :=
  ⟨rfl, rfl, by decide⟩

/-- Claim C2 (amended): when the nearest tag parses as a semver version with
empty pre-release and the distance is positive, GetSemver sets the patch to
the tag's patch plus one reduced modulo 2 to the 64 (the uint64 increment,
equal to patch plus one whenever that does not overflow) and the pre-release
components to exactly alpha of that new patch followed by devel of the
distance, leaving the other fields unchanged. -/
theorem getSemver_untagged_bumps_patch (gd : GitDescription) (t : TagObj) (v : Version)
    (ht : gd.tag = some t)
    (hp : semverParse (nameTail t.name) = Except.ok v)
    (hpre : v.pre = [])
    (hn : 0 < gd.n) :
    GetSemver gd = Except.ok (Version.mk v.major v.minor ((v.patch + 1) % 2 ^ 64)
      [PRVersion.mk ("alpha." ++ String.mk (natToDecimal ((v.patch + 1) % 2 ^ 64))) 0 false,
        PRVersion.mk ("devel." ++ String.mk (natToDecimal gd.n)) 0 false] v.build) :=
  getSemver_pos_empty gd t v ht hp hpre hn

/-- Witness for C2 at tag v1.2.3 and distance 4. -/
theorem getSemver_untagged_bumps_patch_witness :
    semverParse (nameTail "v1.2.3") = Except.ok (Version.mk 1 2 3 [] []) ∧
    GetSemver (GitDescription.mk true (Reference.mk 1) (some (TagObj.mk "v1.2.3" 1)) 4) =
      Except.ok (Version.mk 1 2 4
        [PRVersion.mk "alpha.4" 0 false, PRVersion.mk "devel.4" 0 false] []) :=
  ⟨rfl,
    getSemver_untagged_bumps_patch
      (GitDescription.mk true (Reference.mk 1) (some (TagObj.mk "v1.2.3" 1)) 4)
      (TagObj.mk "v1.2.3" 1) (Version.mk 1 2 3 [] []) rfl rfl rfl (by decide)⟩

/-- Claim C3: when the nearest tag is present and the distance is zero,
GetSemver returns exactly the version parsed from the tag name after stripping
the leading marker character. -/
theorem getSemver_at_tag_exact (gd : GitDescription) (t : TagObj) (v : Version)
    (ht : gd.tag = some t) (hn : gd.n = 0)
    (hp : semverParse (nameTail t.name) = Except.ok v) :
    GetSemver gd = Except.ok v := by
  simp only [GetSemver, ht, hp]
  rw [if_neg (by omega)]

/-- Witness for C3 at tag v2.0.1 and distance 0. -/
theorem getSemver_at_tag_exact_witness :
    GetSemver (GitDescription.mk true (Reference.mk 1) (some (TagObj.mk "v2.0.1" 1)) 0) =
      Except.ok (Version.mk 2 0 1 [] []) :=
  getSemver_at_tag_exact
    (GitDescription.mk true (Reference.mk 1) (some (TagObj.mk "v2.0.1" 1)) 0)
    (TagObj.mk "v2.0.1" 1) (Version.mk 2 0 1 [] []) rfl rfl rfl

/-! Lemmas about the hash-to-tag map and the tag selection loop. -/

lemma mapFind_mapInsert_self (m : List (Nat × TagObj)) (k : Nat) (t : TagObj) :
    mapFind (mapInsert m k t) k = some t := by
  induction m with
  | nil => simp [mapInsert, mapFind]
  | cons p rest ih =>
    obtain ⟨k0, t0⟩ := p
    by_cases h : k0 = k
    · simp [mapInsert, h, mapFind]
    · simp [mapInsert, h, mapFind, ih]

lemma mapFind_mapInsert_ne (m : List (Nat × TagObj)) (k k2 : Nat) (t : TagObj)
    (h : ¬ k = k2) :
    mapFind (mapInsert m k t) k2 = mapFind m k2 := by
  induction m with
  | nil => simp [mapInsert, mapFind, h]
  | cons p rest ih =>
    obtain ⟨k0, t0⟩ := p
    by_cases hk : k0 = k
    · subst hk
      simp [mapInsert, mapFind, h]
    · simp [mapInsert, mapFind, hk, ih]

lemma mapFind_mapInsert_isSome (m : List (Nat × TagObj)) (k k2 : Nat) (t : TagObj)
    (h : (mapFind m k2).isSome = true) :
    (mapFind (mapInsert m k t) k2).isSome = true := by
  by_cases hk : k = k2
  · subst hk
    rw [mapFind_mapInsert_self]
    rfl
  · rw [mapFind_mapInsert_ne m k k2 t hk]
    exact h

lemma mapFind_mem (m : List (Nat × TagObj)) (k : Nat) (t : TagObj)
    (h : mapFind m k = some t) : (k, t) ∈ m := by
  induction m with
  | nil => simp [mapFind] at h
  | cons p rest ih =>
    obtain ⟨k0, t0⟩ := p
    by_cases hk : k0 = k
    · subst hk
      rw [mapFind, if_pos rfl] at h
      injection h with h
      subst h
      exact List.mem_cons_self _ _
    · rw [mapFind, if_neg hk] at h
      exact List.mem_cons_of_mem _ (ih h)

lemma mapInsert_forall (m : List (Nat × TagObj)) (k : Nat) (t : TagObj)
    (P : Nat × TagObj → Prop)
    (hm : ∀ p ∈ m, P p) (ht : P (k, t)) : ∀ p ∈ mapInsert m k t, P p := by
  induction m with
  | nil =>
    intro p hp
    simp [mapInsert] at hp
    subst hp
    exact ht
  | cons q rest ih =>
    obtain ⟨k0, t0⟩ := q
    by_cases hk : k0 = k
    · subst hk
      rw [mapInsert, if_pos rfl]
      intro p hp
      rcases List.mem_cons.1 hp with h | h
      · subst h
        exact ht
      · exact hm p (List.mem_cons_of_mem _ h)
    · rw [mapInsert, if_neg hk]
      intro p hp
      rcases List.mem_cons.1 hp with h | h
      · subst h
        exact hm _ (List.mem_cons_self _ _)
      · exact ih (fun q hq => hm q (List.mem_cons_of_mem _ hq)) p h

lemma tagLoop_ok (tagObject : Nat → Option TagObj) (refs : List RefName)
    (hres : ∀ x ∈ refs, x.name.length ≠ 0 → (semverParse (nameTail x.name)).isOk = true →
      (tagObject x.hash).isSome = true) :
    ∀ acc : List (Nat × TagObj), ∃ m, tagLoop tagObject refs acc = Except.ok m ∧
      (∀ k, (mapFind acc k).isSome = true → (mapFind m k).isSome = true) ∧
      (∀ x ∈ refs, ∀ t, x.name.length ≠ 0 → (semverParse (nameTail x.name)).isOk = true →
        tagObject x.hash = some t → (mapFind m t.target).isSome = true) := by
  induction refs with
  | nil =>
    intro acc
    exact ⟨acc, rfl, fun k h => h, by simp⟩
  | cons r rs ih =>
    intro acc
    have hres' : ∀ x ∈ rs, x.name.length ≠ 0 → (semverParse (nameTail x.name)).isOk = true →
        (tagObject x.hash).isSome = true :=
      fun x hx => hres x (List.mem_cons_of_mem _ hx)
    by_cases hlen : r.name.length = 0
    · obtain ⟨m, hm, hpres, hnew⟩ := ih hres' acc
      refine ⟨m, by rw [tagLoop, if_pos hlen]; exact hm, hpres, ?_⟩
      intro x hx t hxlen hxok hxobj
      rcases List.mem_cons.1 hx with h | h
      · subst h
        exact absurd hlen hxlen
      · exact hnew x h t hxlen hxok hxobj
    · cases hparse : semverParse (nameTail r.name) with
      | error e =>
        obtain ⟨m, hm, hpres, hnew⟩ := ih hres' acc
        refine ⟨m, by rw [tagLoop, if_neg hlen, hparse]; exact hm, hpres, ?_⟩
        intro x hx t hxlen hxok hxobj
        rcases List.mem_cons.1 hx with h | h
        · subst h
          rw [hparse] at hxok
          exact absurd hxok (by simp [Except.isOk, Except.toBool])
        · exact hnew x h t hxlen hxok hxobj
      | ok v =>
        have hobj : (tagObject r.hash).isSome = true :=
          hres r (List.mem_cons_self _ _) hlen (by rw [hparse]; rfl)
        obtain ⟨t0, ht0⟩ := Option.isSome_iff_exists.1 hobj
        obtain ⟨m, hm, hpres, hnew⟩ := ih hres' (mapInsert acc t0.target t0)
        refine ⟨m, by rw [tagLoop, if_neg hlen, hparse, ht0]; exact hm, ?_, ?_⟩
        · intro k hk
          exact hpres k (mapFind_mapInsert_isSome acc t0.target k t0 hk)
        · intro x hx t hxlen hxok hxobj
          rcases List.mem_cons.1 hx with h | h
          · subst h
            rw [ht0] at hxobj
            injection hxobj with hxobj
            subst hxobj
            refine hpres t0.target ?_
            rw [mapFind_mapInsert_self]
            rfl
          · exact hnew x h t hxlen hxok hxobj

/-- Claim C4 counterexample: a reference named v1.2.3 whose hash does not
resolve to an annotated tag object (a lightweight tag) makes tag selection
fail with an error instead of being silently excluded from the mapping. -/
theorem getVersionTags_lightweight_error :
    getVersionTags (Repo.mk (Except.ok ()) (Except.ok true)
      (Except.ok [RefName.mk "v1.2.3" 7]) (fun _ => none) (fun _ => Except.error "log")) =
      Except.error "object not found" := rfl

/-- Claim C4 (amended): when every semver-named reference resolves to an
annotated tag object, tag selection succeeds, non-parsing names are silently
skipped, and the mapping has an entry keyed by the target of each such tag; a
semver-named reference with no tag object (a lightweight tag) instead makes
the whole selection fail. -/
theorem getVersionTags_annotated_ok (r : Repo) (refs : List RefName)
    (href : r.tagRefs = Except.ok refs)
    (hres : ∀ x ∈ refs, x.name.length ≠ 0 → (semverParse (nameTail x.name)).isOk = true →
      (r.tagObject x.hash).isSome = true) :
    ∃ m, getVersionTags r = Except.ok m ∧
      ∀ x ∈ refs, ∀ t, x.name.length ≠ 0 → (semverParse (nameTail x.name)).isOk = true →
        r.tagObject x.hash = some t → (mapFind m t.target).isSome = true := by
  obtain ⟨m, hm, _, hnew⟩ := tagLoop_ok r.tagObject refs hres []
  refine ⟨m, ?_, hnew⟩
  rw [getVersionTags, href]
  exact hm

/-- Concrete repository for the C4 witness. -/
def repoC4 : Repo :=
  Repo.mk (Except.ok ()) (Except.ok true)
    (Except.ok [RefName.mk "v1.2.3" 7, RefName.mk "not-a-version" 8])
    (fun h => if h = 7 then some (TagObj.mk "v1.2.3" 5) else none)
    (fun _ => Except.error "log")

/-- Witness for C4 (amended) on a repository with one annotated semver tag and
one non-parsing reference. -/
theorem getVersionTags_annotated_ok_witness :
    (∀ x ∈ [RefName.mk "v1.2.3" 7, RefName.mk "not-a-version" 8],
      x.name.length ≠ 0 → (semverParse (nameTail x.name)).isOk = true →
      (repoC4.tagObject x.hash).isSome = true) ∧
    ∃ m, getVersionTags repoC4 = Except.ok m ∧
      ∀ x ∈ [RefName.mk "v1.2.3" 7, RefName.mk "not-a-version" 8], ∀ t,
        x.name.length ≠ 0 → (semverParse (nameTail x.name)).isOk = true →
        repoC4.tagObject x.hash = some t → (mapFind m t.target).isSome = true :=
  ⟨by decide, getVersionTags_annotated_ok repoC4 _ rfl (by decide)⟩

/-! Lemmas about the describe commit walk. -/

lemma walkStep_stopped (tags : List (Nat × TagObj)) (t : TagObj) (n : Nat) (c : Nat) :
    walkStep tags (some t, n) c = (some t, n) := rfl

lemma foldl_walk_stopped (tags : List (Nat × TagObj)) (t : TagObj) (n : Nat)
    (log : List Nat) :
    log.foldl (walkStep tags) (some t, n) = (some t, n) := by
  induction log with
  | nil => rfl
  | cons c cs ih =>
    rw [List.foldl_cons, walkStep_stopped]
    exact ih

lemma walk_aux_found (tags : List (Nat × TagObj)) (pre : List Nat) :
    ∀ k c post t, (∀ x ∈ pre, mapFind tags x = none) → mapFind tags c = some t →
      (pre ++ c :: post).foldl (walkStep tags) (none, k) = (some t, k + pre.length) := by
  induction pre with
  | nil =>
    intro k c post t _ hc
    rw [List.nil_append, List.foldl_cons,
      show walkStep tags (none, k) c = (some t, k) by simp [walkStep, hc],
      foldl_walk_stopped]
    simp
  | cons x xs ih =>
    intro k c post t hpre hc
    rw [List.cons_append, List.foldl_cons,
      show walkStep tags (none, k) x = (none, k + 1) by simp [walkStep, hpre x (by simp)],
      ih (k + 1) c post t (fun y hy => hpre y (by simp [hy])) hc]
    simp only [List.length_cons, Prod.mk.injEq]
    exact ⟨trivial, by omega⟩

lemma walk_aux_none (tags : List (Nat × TagObj)) (log : List Nat) :
    ∀ k, (∀ x ∈ log, mapFind tags x = none) →
      log.foldl (walkStep tags) (none, k) = (none, k + log.length) := by
  induction log with
  | nil =>
    intro k _
    simp
  | cons x xs ih =>
    intro k h
    rw [List.foldl_cons,
      show walkStep tags (none, k) x = (none, k + 1) by simp [walkStep, h x (by simp)],
      ih (k + 1) (fun y hy => h y (by simp [hy]))]
    simp only [List.length_cons, Prod.mk.injEq]
    exact ⟨trivial, by omega⟩

/-- Claim C5: the history walk checks each commit of the log (in its given
committer-time descending order, starting at the reference) against the tag
mapping before incrementing the distance, stops at the first match recording
the current distance (so a tagged starting commit yields distance 0), and
reports no tag with one increment per visited commit when history is
exhausted without a match. -/
theorem walkLog_first_match (tags : List (Nat × TagObj)) (log : List Nat) :
    (∀ pre c post t, log = pre ++ c :: post →
      (∀ x ∈ pre, mapFind tags x = none) → mapFind tags c = some t →
      walkLog tags log = (some t, pre.length)) ∧
    ((∀ x ∈ log, mapFind tags x = none) → walkLog tags log = (none, log.length)) := by
  constructor
  · intro pre c post t hlog hpre hc
    rw [hlog, walkLog, walk_aux_found tags pre 0 c post t hpre hc]
    simp
  · intro hall
    rw [walkLog, walk_aux_none tags log 0 hall]
    simp

/-- Witness for C5: a walk that skips two untagged commits and stops on the
tagged third one with distance 2. -/
theorem walkLog_first_match_witness :
    mapFind [(5, TagObj.mk "v1.0.0" 5)] 3 = none ∧
    mapFind [(5, TagObj.mk "v1.0.0" 5)] 5 = some (TagObj.mk "v1.0.0" 5) ∧
    walkLog [(5, TagObj.mk "v1.0.0" 5)] [3, 4, 5, 9] = (some (TagObj.mk "v1.0.0" 5), 2) :=
  ⟨rfl, rfl,
    (walkLog_first_match [(5, TagObj.mk "v1.0.0" 5)] [3, 4, 5, 9]).1
      [3, 4] 5 [9] (TagObj.mk "v1.0.0" 5) rfl (by decide) (by decide)⟩

lemma tagLoop_targets (tagObject : Nat → Option TagObj) (refs : List RefName) :
    ∀ acc m, (∀ p ∈ acc, (p : Nat × TagObj).2.target = p.1) →
      tagLoop tagObject refs acc = Except.ok m →
      ∀ p ∈ m, (p : Nat × TagObj).2.target = p.1 := by
  induction refs with
  | nil =>
    intro acc m hacc hm
    rw [tagLoop] at hm
    injection hm with hm
    subst hm
    exact hacc
  | cons r rs ih =>
    intro acc m hacc
    by_cases hlen : r.name.length = 0
    · rw [tagLoop, if_pos hlen]
      exact ih acc m hacc
    · rw [tagLoop, if_neg hlen]
      cases hparse : semverParse (nameTail r.name) with
      | error e => exact ih acc m hacc
      | ok v =>
        cases hobj : tagObject r.hash with
        | none =>
          intro hm
          exact absurd hm (by simp)
        | some t =>
          exact ih (mapInsert acc t.target t) m
            (mapInsert_forall acc t.target t _ hacc rfl)

lemma getVersionTags_targets (r : Repo) (m : List (Nat × TagObj))
    (hm : getVersionTags r = Except.ok m) :
    ∀ p ∈ m, (p : Nat × TagObj).2.target = p.1 := by
  revert hm
  rw [getVersionTags]
  cases href : r.tagRefs with
  | error e =>
    intro hm
    exact absurd hm (by simp)
  | ok refs =>
    intro hm
    exact tagLoop_targets r.tagObject refs [] m (by simp) hm

lemma foldl_walk_ge (tags : List (Nat × TagObj)) (log : List Nat) :
    ∀ st : Option TagObj × Nat, st.2 ≤ (log.foldl (walkStep tags) st).2 := by
  induction log with
  | nil => intro st; exact Nat.le_refl _
  | cons c cs ih =>
    intro st
    have h1 : st.2 ≤ (walkStep tags st c).2 := by
      rw [walkStep]
      cases hst : st.1
      · cases mapFind tags c
        · exact Nat.le_succ _
        · exact Nat.le_refl _
      · exact Nat.le_refl _
    rw [List.foldl_cons]
    exact Nat.le_trans h1 (ih (walkStep tags st c))

/-- Claim C6: a successfully produced description whose distance is zero has a
nearest tag whose target commit is exactly the described reference's commit
(given that the log produced for the reference starts at that reference's
commit, as the log call guarantees). -/
theorem describe_distance_zero_tagged (r : Repo) (ref : Reference) (rest : List Nat)
    (gd : GitDescription)
    (hlog : r.logFrom ref.hash = Except.ok (ref.hash :: rest))
    (hd : describe r ref = Except.ok gd) (hn : gd.n = 0) :
    ∃ t, gd.tag = some t ∧ t.target = ref.hash := by
  revert hd hn
  rw [describe]
  cases hw : r.worktree with
  | error e => intro hd; exact absurd hd (by simp)
  | ok _ =>
    cases hs : r.statusIsClean with
    | error e => intro hd; exact absurd hd (by simp)
    | ok clean =>
      cases hm : getVersionTags r with
      | error e => intro hd; exact absurd hd (by simp)
      | ok tags =>
        rw [hlog]
        intro hd hn
        simp only [Except.ok.injEq] at hd
        subst hd
        simp only at hn
        cases hf : mapFind tags ref.hash with
        | some t =>
          have hwalk : walkLog tags (ref.hash :: rest) = (some t, 0) := by
            rw [walkLog, List.foldl_cons,
              show walkStep tags (none, 0) ref.hash = (some t, 0) by simp [walkStep, hf]]
            exact foldl_walk_stopped tags t 0 rest
          refine ⟨t, ?_, ?_⟩
          · simp only
            rw [hwalk]
          · exact getVersionTags_targets r tags hm (ref.hash, t)
              (mapFind_mem tags ref.hash t hf)
        | none =>
          exfalso
          have hge : 1 ≤ (walkLog tags (ref.hash :: rest)).2 := by
            rw [walkLog, List.foldl_cons,
              show walkStep tags (none, 0) ref.hash = (none, 1) by simp [walkStep, hf]]
            exact foldl_walk_ge tags rest (none, 1)
          omega

/-- Concrete repository for the C6 witness. -/
def repoC6 : Repo :=
  Repo.mk (Except.ok ()) (Except.ok true) (Except.ok [RefName.mk "v1.0.0" 4])
    (fun h => if h = 4 then some (TagObj.mk "v1.0.0" 9) else none)
    (fun h => if h = 9 then Except.ok [9, 3] else Except.error "log")

/-- Witness for C6: HEAD at hash 9 is itself tagged, so distance 0 and the tag
targets hash 9. -/
theorem describe_distance_zero_tagged_witness :
    describe repoC6 (Reference.mk 9) =
      Except.ok (GitDescription.mk true (Reference.mk 9) (some (TagObj.mk "v1.0.0" 9)) 0) ∧
    ∃ t, (GitDescription.mk true (Reference.mk 9) (some (TagObj.mk "v1.0.0" 9)) 0).tag =
        some t ∧ t.target = 9 :=
  ⟨rfl,
    describe_distance_zero_tagged repoC6 (Reference.mk 9) [3]
      (GitDescription.mk true (Reference.mk 9) (some (TagObj.mk "v1.0.0" 9)) 0) rfl rfl rfl⟩

/-- Claim C7: after the first call to GitDescribe the once body has run exactly
once, and any further call returns the identical cached pair (description and
error, including a cached first-call failure) without running the body again. -/
theorem gitDescribe_cached_once (compute : Option GitDescription × Option String)
    (r1 : Option GitDescription × Option String) (s1 : OnceState)
    (h : GitDescribe compute initialOnceState = (r1, s1)) :
    GitDescribe compute s1 = (r1, s1) ∧ s1.runs = 1 ∧ r1 = (compute.1, compute.2) := by
  rw [GitDescribe, initialOnceState] at h
  simp only [Bool.false_eq_true, if_false, Prod.mk.injEq] at h
  obtain ⟨h1, h2⟩ := h
  subst h1
  subst h2
  exact ⟨rfl, rfl, rfl⟩

/-- Witness for C7 with a failing first computation: the error is cached and
returned again, and the body has run once. -/
theorem gitDescribe_cached_once_witness :
    GitDescribe ((none : Option GitDescription), some "repository does not exist")
        initialOnceState =
      ((none, some "repository does not exist"),
        OnceState.mk true none (some "repository does not exist") 1) ∧
    GitDescribe ((none : Option GitDescription), some "repository does not exist")
        (OnceState.mk true none (some "repository does not exist") 1) =
      ((none, some "repository does not exist"),
        OnceState.mk true none (some "repository does not exist") 1) ∧
    (OnceState.mk true none (some "repository does not exist") 1).runs = 1 :=
  ⟨rfl,
    (gitDescribe_cached_once (none, some "repository does not exist")
      (none, some "repository does not exist")
      (OnceState.mk true none (some "repository does not exist") 1) rfl).1,
    rfl⟩

/-- Claim C8: constructing an archive builder fails with a named error when the
nearest tag is absent or the distance is positive; with a tag present and a
positive distance the error names the tag and says it must also be HEAD. No
GitArchive value is produced, so no archive bytes can be written. -/
theorem newGitArchive_requires_exact_tag (dres : Except String GitDescription)
    (pathPrefix : String) (gd : GitDescription)
    (hok : dres = Except.ok gd)
    (hbad : gd.tag = none ∨ 0 < gd.n) :
    (∃ e, NewGitArchive dres pathPrefix = Except.error e) ∧
    ∀ t, gd.tag = some t → 0 < gd.n →
      NewGitArchive dres pathPrefix =
        Except.error ("tag " ++ t.name ++ " must also be HEAD") := by
  subst hok
  cases htag : gd.tag with
  | none =>
    refine ⟨⟨"no tag found to create archive from", by simp [NewGitArchive, htag]⟩, ?_⟩
    intro t ht
    exact absurd ht (by simp)
  | some t0 =>
    have hn : 0 < gd.n := by
      rcases hbad with h | h
      · rw [htag] at h
        exact absurd h (by simp)
      · exact h
    refine ⟨⟨"tag " ++ t0.name ++ " must also be HEAD",
      by simp [NewGitArchive, htag, hn]⟩, ?_⟩
    intro t ht _
    injection ht with ht
    subst ht
    simp [NewGitArchive, htag, hn]

/-- Witness for C8: HEAD three commits past tag v1.2.3 yields the named
must-also-be-HEAD error. -/
theorem newGitArchive_requires_exact_tag_witness :
    ((GitDescription.mk true (Reference.mk 1) (some (TagObj.mk "v1.2.3" 4)) 3).tag = none ∨
      0 < (GitDescription.mk true (Reference.mk 1) (some (TagObj.mk "v1.2.3" 4)) 3).n) ∧
    NewGitArchive
        (Except.ok (GitDescription.mk true (Reference.mk 1) (some (TagObj.mk "v1.2.3" 4)) 3))
        "proj-1.0" =
      Except.error ("tag " ++ "v1.2.3" ++ " must also be HEAD") :=
  ⟨Or.inr (by decide),
    (newGitArchive_requires_exact_tag
      (Except.ok (GitDescription.mk true (Reference.mk 1) (some (TagObj.mk "v1.2.3" 4)) 3))
      "proj-1.0"
      (GitDescription.mk true (Reference.mk 1) (some (TagObj.mk "v1.2.3" 4)) 3)
      rfl (Or.inr (by decide))).2
      (TagObj.mk "v1.2.3" 4) rfl (by decide)⟩

/-- Selects the writer-close events of an archive trace. -/
def isCloseEvent : WEvent → Bool
  | WEvent.entry _ => false
  | WEvent.closeTar => true
  | WEvent.closeGzip => true
  | WEvent.closeZip => true

lemma tgzLoop_no_close (addEntry : String → Except String Unit) (entries : List String) :
    (tgzLoop addEntry entries).2.filter isCloseEvent = [] := by
  induction entries with
  | nil => rfl
  | cons e es ih =>
    cases h : addEntry e with
    | error msg => simp [tgzLoop, h]
    | ok u => simp [tgzLoop, h, List.filter_cons, isCloseEvent, ih]

lemma zipLoop_no_close (addEntry : String → Except String Unit) (entries : List String) :
    (zipLoop addEntry entries).2.filter isCloseEvent = [] := by
  induction entries with
  | nil => rfl
  | cons e es ih =>
    cases h : addEntry e with
    | error msg => simp [zipLoop, h]
    | ok u => simp [zipLoop, h, List.filter_cons, isCloseEvent, ih]

/-- Claim C9 counterexample: a per-entry failure in createZipArchive returns
early with no close event at all, so the zip writer is not closed on that exit
path. -/
theorem createZipArchive_error_no_close :
    createZipArchive (fun _ => Except.error "stat failed") ["a.txt"] =
      (Except.error "while adding file a.txt to zip archive: stat failed", []) := rfl

/-- Claim C9 (amended): createTgzArchive closes the tar writer and then the
gzip writer on every exit path; createZipArchive closes the zip writer on the
success path only, and closes nothing when an entry fails. -/
theorem archive_close_discipline (addEntry addEntryZ : String → Except String Unit)
    (entries entriesZ : List String) :
    (createTgzArchive addEntry entries).2.filter isCloseEvent =
      [WEvent.closeTar, WEvent.closeGzip] ∧
    (∀ tr, createZipArchive addEntryZ entriesZ = (Except.ok (), tr) →
      tr.filter isCloseEvent = [WEvent.closeZip]) ∧
    (∀ e tr, createZipArchive addEntryZ entriesZ = (Except.error e, tr) →
      tr.filter isCloseEvent = []) := by
  refine ⟨?_, ?_, ?_⟩
  · rw [createTgzArchive]
    rw [List.filter_append, tgzLoop_no_close]
    rfl
  · intro tr htr
    rw [createZipArchive] at htr
    cases hz : (zipLoop addEntryZ entriesZ).1 with
    | error e =>
      rw [hz] at htr
      exact absurd htr (by simp)
    | ok u =>
      rw [hz] at htr
      simp only [Prod.mk.injEq] at htr
      obtain ⟨_, htr2⟩ := htr
      subst htr2
      rw [List.filter_append, zipLoop_no_close]
      rfl
  · intro e tr htr
    rw [createZipArchive] at htr
    cases hz : (zipLoop addEntryZ entriesZ).1 with
    | error e2 =>
      rw [hz] at htr
      simp only [Prod.mk.injEq, Except.error.injEq] at htr
      obtain ⟨_, htr2⟩ := htr
      subst htr2
      rw [zipLoop_no_close]
    | ok u =>
      rw [hz] at htr
      exact absurd htr (by simp)

/-- Witness for C9 (amended) with one successfully added entry per format. -/
theorem archive_close_discipline_witness :
    createZipArchive (fun _ => Except.ok ()) ["a.txt"] =
      (Except.ok (), [WEvent.entry "a.txt", WEvent.closeZip]) ∧
    (createTgzArchive (fun _ => Except.ok ()) ["a.txt"]).2.filter isCloseEvent =
      [WEvent.closeTar, WEvent.closeGzip] ∧
    ([WEvent.entry "a.txt", WEvent.closeZip]).filter isCloseEvent = [WEvent.closeZip] :=
  ⟨rfl,
    (archive_close_discipline (fun _ => Except.ok ()) (fun _ => Except.ok ())
      ["a.txt"] ["a.txt"]).1,
    (archive_close_discipline (fun _ => Except.ok ()) (fun _ => Except.ok ())
      ["a.txt"] ["a.txt"]).2.1 [WEvent.entry "a.txt", WEvent.closeZip] rfl⟩

/-- Claim C10: for any format value other than the two defined constants,
Create returns success and writes nothing. -/
theorem create_unknown_format_noop (addEntryTar addEntryZip : String → Except String Unit)
    (format : Nat) (entries : List String)
    (h0 : ¬ format = TgzArchive) (h1 : ¬ format = ZipArchive) :
    GitArchive.Create addEntryTar addEntryZip format entries = (Except.ok (), []) := by
  rw [GitArchive.Create, if_neg h0, if_neg h1]

/-- Witness for C10 at format value 5. -/
theorem create_unknown_format_noop_witness :
    ¬ (5 : Nat) = TgzArchive ∧ ¬ (5 : Nat) = ZipArchive ∧
    GitArchive.Create (fun _ => Except.ok ()) (fun _ => Except.ok ()) 5 ["a.txt"] =
      (Except.ok (), []) :=
  ⟨by decide, by decide,
    create_unknown_format_noop (fun _ => Except.ok ()) (fun _ => Except.ok ()) 5 ["a.txt"]
      (by decide) (by decide)⟩
